import Mathlib

/-!
Shallow embedding of the geometry / range-resolution core of a circular
slider widget (source file `src/core/domain/slider-provider.ts`).

Numbers are modelled by `ℚ` (the idealised exact semantics of the
JavaScript arithmetic; no claim here depends on floating-point rounding).
The transcendental ingredients (`Math.cos`, `Math.sin`, `Math.atan2`,
`Math.PI`) come from the host math library, so they enter as parameters:
`c s : ℚ → ℚ` stand for cosine and sine (theorems that need it assume the
Pythagorean identity for them), `atan2v : Vector2 → ℚ` stands for the
angle-of-vector routine, and `pi : ℚ` stands for the circle constant.
All definitions are computable, so every statement can be evaluated on
concrete inputs.
-/

namespace RoundSlider

/-- A JavaScript runtime value as it can reach `getMinMax`:
a (finite) number, a string, `undefined`, or `null`.
Strict equality `===` is modelled by decidable equality of this type. -/
inductive JSVal where
  | num : ℚ → JSVal
  | str : String → JSVal
  | undef : JSVal
  | null : JSVal
deriving DecidableEq

/-- An ordered pair of numbers (`Vector2` of the source). -/
abbrev Vector2 := ℚ × ℚ

/-- Modelled from the spec: `getNumber` (from `common.ts`, absent from
`src/`) parses a value as a number with a fallback default: a number is
returned as is, a string is parsed by the ambient numeric parser
(abstracted as `parseNum`), and anything unparsable yields the default. -/
def getNumber (parseNum : String → Option ℚ) (v : JSVal) (defaultValue : ℚ) : ℚ :=
  match v with
  | .num q => q
  | .str st => (parseNum st).getD defaultValue
  | .undef => defaultValue
  | .null => defaultValue

/-- Modelled from the spec: `setDecimalPlaces` (external math library)
rounds to `n` decimal places; JavaScript `Math.round` rounds half up. -/
def setDecimalPlaces (x : ℚ) (n : ℕ) : ℚ :=
  (⌊x * (10 : ℚ) ^ n + 1 / 2⌋ : ℚ) / (10 : ℚ) ^ n

/-- Modelled from the spec: degree→radian conversion of the external math
library, `degrees * (PI / 180)`, with the circle constant as a parameter. -/
def degreesToRadians (pi d : ℚ) : ℚ :=
  d * (pi / 180)

/-- Modelled from the spec: radian→degree conversion of the external math
library, `radians * (180 / PI)`. -/
def radiansToDegrees (pi r : ℚ) : ℚ :=
  r * (180 / pi)

/-- Modelled from the spec: polar→cartesian conversion of the external
math library: the point of the axis-aligned ellipse with the given center
and radii at parameter `angleRad`, with cosine and sine as parameters. -/
def polarToCartesian (c s : ℚ → ℚ) (center radii : Vector2) (angleRad : ℚ) : Vector2 :=
  (center.1 + radii.1 * c angleRad, center.2 + radii.2 * s angleRad)

/-- Modelled from the spec: componentwise vector subtraction. -/
def v2Sub (a b : Vector2) : Vector2 :=
  (a.1 - b.1, a.2 - b.2)

/-- Modelled from the spec: `getAnglesSub` (external math library) is the
minimal absolute angular separation of two angles in degrees, accounting
for wraparound: `min (|a - b|) (360 - |a - b|)`. -/
def getAnglesSub (a b : ℚ) : ℚ :=
  min |a - b| (360 - |a - b|)

/-- Modelled from the spec: `isAngleInArc` (from `angles-provider.ts`,
absent from `src/`) decides whether `deg` lies within the arc traversed
from `startA` to `endA` in the increasing direction, wrapping past 360°
when `endA < startA`. -/
def isAngleInArc (startA endA deg : ℚ) : Bool :=
  if startA ≤ endA then startA ≤ deg ∧ deg ≤ endA
  else startA ≤ deg ∨ deg ≤ endA

/-- Modelled from the spec: linear range conversion of the external math
library, mapping `value` from `[oldMin, oldMax]` to `[newMin, newMax]`. -/
def convertRange (value oldMin oldMax newMin newMax : ℚ) : ℚ :=
  (value - oldMin) * (newMax - newMin) / (oldMax - oldMin) + newMin

/-- Modelled from the spec: `ellipseMovement` (external math library)
returns the point of the ellipse at a half-turn parameter: it expects an
angle in `[0, π)` and doubles it internally, so the caller's remap of
`[0, 2π)` onto `[0, π)` recovers the original angle. -/
def ellipseMovement (c s : ℚ → ℚ) (center : Vector2) (angle radius1 radius2 : ℚ) : Vector2 :=
  (center.1 + radius1 * c (2 * angle), center.2 + radius2 * s (2 * angle))

/-- `getSVGSize`: SVG canvas size from the ellipse radii, the maximal
pointer radii and the stroke width. -/
def getSVGSize (svgRadii maxPointerRadii : Vector2) (strokeWidth : ℚ) : Vector2 :=
  let rxSvg := svgRadii.1
  let rySvg := svgRadii.2
  let rxPointer := maxPointerRadii.1
  let ryPointer := maxPointerRadii.2
  let diffX := max 0 (rxPointer * 2 - strokeWidth)
  let diffY := max 0 (ryPointer * 2 - strokeWidth)
  let svgWidth := rxSvg * 2 + strokeWidth + diffX
  let svgHeight := rySvg * 2 + strokeWidth + diffY
  (svgWidth, svgHeight)

/-- `getSVGCenter`: the center point of the SVG, half the canvas size per
axis, rounded to two decimal places. -/
def getSVGCenter (svgRadii maxPointerRadii : Vector2) (strokeWidth : ℚ) : Vector2 :=
  let sz := getSVGSize svgRadii maxPointerRadii strokeWidth
  (setDecimalPlaces (sz.1 / 2) 2, setDecimalPlaces (sz.2 / 2) 2)

/-- Result of `getEllipseSegment`: the two endpoints of the arc and the
`large-arc-flag` of the SVG elliptical-arc path command. -/
structure EllipseSegment where
  sliderStartPoint : Vector2
  sliderEndPoint : Vector2
  largeArcFlag : ℕ
deriving DecidableEq

/-- `getEllipseSegment`: start and end points of the SVG ellipse segment
and its `large-arc-flag`.  The flag is computed from the raw angle
difference; afterwards, if the start angle exceeds the end angle, 360° is
added to the end angle before placing the end point. -/
def getEllipseSegment (pi : ℚ) (c s : ℚ → ℚ)
    (startAngleDegrees endAngleDegrees : ℚ)
    (svgRadii pointerRadii : Vector2) (strokeWidth : ℚ) : EllipseSegment :=
  let endAngle0 := endAngleDegrees
  let largeArcFlag : ℕ := if endAngle0 - startAngleDegrees ≤ 180 then 0 else 1
  let endAngle := if startAngleDegrees > endAngle0 then endAngle0 + 360 else endAngle0
  let center := getSVGCenter svgRadii pointerRadii strokeWidth
  let sliderStartPoint := polarToCartesian c s center svgRadii (degreesToRadians pi startAngleDegrees)
  let sliderEndPoint := polarToCartesian c s center svgRadii (degreesToRadians pi endAngle)
  ⟨sliderStartPoint, sliderEndPoint, largeArcFlag⟩

/-- The angular span from `a` to `b` in degrees, normalised into
`[0, 360)` (the mathematical `(b - a) mod 360`). -/
def normDeg (d : ℚ) : ℚ :=
  d - 360 * ⌊d / 360⌋

/-- The angle (in radians, shifted by a full turn when the raw
angle-of-vector is negative) of the input position relative to the
center: steps 1–2 of `getPointerPosition` (mouse → relative coordinates →
vector from center → angle). -/
def pointerAngle (pi : ℚ) (atan2v : Vector2 → ℚ)
    (rectLeftTop absoluteMouse center : Vector2) : ℚ :=
  let relativeMouse : Vector2 := (absoluteMouse.1 - rectLeftTop.1, absoluteMouse.2 - rectLeftTop.2)
  let vector := v2Sub relativeMouse center
  let angle0 := atan2v vector
  if angle0 < 0 then angle0 + 2 * pi else angle0

/-- The derived angle of the input position in degrees: step 3 of
`getPointerPosition`. -/
def pointerDegrees (pi : ℚ) (atan2v : Vector2 → ℚ)
    (rectLeftTop absoluteMouse center : Vector2) : ℚ :=
  radiansToDegrees pi (pointerAngle pi atan2v rectLeftTop absoluteMouse center)

/-- `getPointerPosition`: pointer position on the ellipse from the current
mouse/touch position.  The bounding rectangle of the SVG element enters as
its top-left corner `rectLeftTop`; the angle-of-vector routine of the
external math library enters as the parameter `atan2v`. -/
def getPointerPosition (pi : ℚ) (c s : ℚ → ℚ) (atan2v : Vector2 → ℚ)
    (rectLeftTop : Vector2)
    (absoluteMouse center svgRadii : Vector2)
    (startAngleDegrees endAngleDegrees : ℚ)
    (sliderStartPoint sliderEndPoint : Vector2) : Vector2 :=
  let relativeMouse : Vector2 := (absoluteMouse.1 - rectLeftTop.1, absoluteMouse.2 - rectLeftTop.2)
  let vector := v2Sub relativeMouse center
  let angle0 := atan2v vector
  let angle := if angle0 < 0 then angle0 + 2 * pi else angle0
  let degrees := radiansToDegrees pi angle
  let angleSub1 := getAnglesSub degrees startAngleDegrees
  let angleSub2 := getAnglesSub degrees endAngleDegrees
  let isInArc := isAngleInArc startAngleDegrees endAngleDegrees degrees
  if ¬ isInArc then
    (if angleSub1 ≤ angleSub2 then sliderStartPoint else sliderEndPoint)
  else
    let angle2 := convertRange angle 0 (2 * pi) 0 pi
    ellipseMovement c s center angle2 svgRadii.1 svgRadii.2

/-- One draggable handle of the slider state; only its own radii matter to
the functions embedded here (the remaining fields of the source record —
`percent`, `id`, colours, flags — are irrelevant to every claim). -/
structure IStatePointer where
  pointerRadii : Vector2
deriving DecidableEq

/-- `getMaxPointer`: componentwise maximum of the pointer radii, folded
with `Math.max` from `-Infinity` accumulators (modelled by `⊥` of
`WithBot ℚ`). -/
def getMaxPointer (pointers : List IStatePointer) : WithBot ℚ × WithBot ℚ :=
  pointers.foldl
    (fun acc pointer =>
      (max acc.1 (pointer.pointerRadii.1 : WithBot ℚ),
       max acc.2 (pointer.pointerRadii.2 : WithBot ℚ)))
    (⊥, ⊥)

/-- JavaScript `Array.prototype.findIndex`: the index of the first element
satisfying the predicate, `-1` when there is none. -/
def findIndex (p : α → Bool) : List α → ℤ
  | [] => -1
  | a :: as =>
    if p a then 0
    else
      let r := findIndex p as
      if r = -1 then -1 else r + 1

/-- `getMinMax`: resolve the user-supplied `min`/`max` into the internal
bounds.  With `data` present they become indices (first strict-equality
match; unmatched `min` → 0, unmatched `max` → last index); otherwise they
are parsed as numbers with the default constants (parameters
`MIN_VALUE_DEFAULT`, `MAX_VALUE_DEFAULT`, from `defaults.ts` which is
absent from `src/`) as fallbacks, and an inverted pair is corrected by
`max = min + MAX_VALUE_DEFAULT`. -/
def getMinMax (parseNum : String → Option ℚ)
    (MIN_VALUE_DEFAULT MAX_VALUE_DEFAULT : ℚ)
    (mn mx : JSVal) (data : Option (List JSVal)) : Vector2 :=
  match data with
  | some d =>
    let minIndex := findIndex (fun item => item = mn) d
    let maxIndex := findIndex (fun item => item = mx) d
    let resMin : ℚ := if minIndex = -1 then 0 else (minIndex : ℚ)
    let resMax : ℚ := if maxIndex = -1 then (d.length : ℚ) - 1 else (maxIndex : ℚ)
    (resMin, resMax)
  | none =>
    let resMin := getNumber parseNum mn MIN_VALUE_DEFAULT
    let resMax0 := getNumber parseNum mx MAX_VALUE_DEFAULT
    let resMax1 := if resMin > resMax0 then resMin + MAX_VALUE_DEFAULT else resMax0
    let resMax2 := if resMax1 < resMin then resMin + MAX_VALUE_DEFAULT else resMax1
    (resMin, resMax2)

/-- The `TStep` type of the source: a per-drag step function, a fixed
numeric step, `undefined`, or `null`. -/
inductive TStep where
  | func : (JSVal → ℚ → ℚ) → TStep
  | num : ℚ → TStep
  | undef : TStep
  | null : TStep

/-- `getStep`: validate the user-supplied step.  `null`/`undefined` give
`undefined`; a function passes through; a number (for which the source's
`getNumber(userStep, 1)` is the number itself) is discarded when it
exceeds the absolute range `|max - min|`. -/
def getStep (userStep : TStep) (mn mx : ℚ) : TStep :=
  match userStep with
  | .null => .undef
  | .undef => .undef
  | .func f => .func f
  | .num q =>
    let step := q
    let diff := |mx - mn|
    if step > diff then .undef else .num step

/-- The point `p` lies on the axis-aligned ellipse with the given center
and radii: `((x - cx) / rx)^2 + ((y - cy) / ry)^2 = 1`. -/
def ellipseEq (center radii p : Vector2) : Prop :=
  ((p.1 - center.1) / radii.1) ^ 2 + ((p.2 - center.2) / radii.2) ^ 2 = 1

/-- `i` is the index of the first occurrence of `v` in `l`. -/
def firstIdxOf (l : List JSVal) (v : JSVal) (i : ℕ) : Prop :=
  l.get? i = some v ∧ ∀ j < i, l.get? j ≠ some v

/-! ### Helper lemmas -/

lemma add_max_sub (t u : ℚ) : u + max 0 (t - u) = max u t := by
  rcases le_total t u with h | h
  · rw [max_eq_left (by linarith), max_eq_left h]
    ring
  · rw [max_eq_right (by linarith), max_eq_right h]
    ring

lemma findIndex_cases (p : α → Bool) (l : List α) :
    findIndex p l = -1 ∨ ∃ i : ℕ, findIndex p l = (i : ℤ) := by
  induction l with
  | nil => exact Or.inl rfl
  | cons a as ih =>
    by_cases ha : p a
    · exact Or.inr ⟨0, by simp [findIndex, ha]⟩
    · rcases ih with h | ⟨i, h⟩
      · exact Or.inl (by simp [findIndex, ha, h])
      · refine Or.inr ⟨i + 1, ?_⟩
        have hne : findIndex p as ≠ -1 := by rw [h]; omega
        simp [findIndex, ha, hne, h]

lemma findIndex_neg_one_not_sat (p : α → Bool) (l : List α)
    (h : findIndex p l = -1) : ∀ a ∈ l, ¬ p a := by
  induction l with
  | nil => simp
  | cons a as ih =>
    by_cases ha : p a
    · simp [findIndex, ha] at h
    · intro b hb
      rcases List.mem_cons.mp hb with rfl | hb2
      · simpa using ha
      · rcases findIndex_cases p as with h2 | ⟨i, h2⟩
        · exact ih h2 b hb2
        · exfalso
          have hne : findIndex p as ≠ -1 := by rw [h2]; omega
          simp [findIndex, ha, hne, h2] at h
          omega

lemma findIndex_firstIdxOf (v : JSVal) (l : List JSVal) (i : ℕ)
    (h : findIndex (fun item => item = v) l = (i : ℤ)) : firstIdxOf l v i := by
  induction l generalizing i with
  | nil =>
    exfalso
    simp only [findIndex] at h
    omega
  | cons a as ih =>
    by_cases ha : a = v
    · have h0 : findIndex (fun item => item = v) (a :: as) = 0 := by simp [findIndex, ha]
      rw [h0] at h
      have : i = 0 := by omega
      subst this
      exact ⟨by simpa using ha, by omega⟩
    · rcases findIndex_cases (fun item => item = v) as with h2 | ⟨j, h2⟩
      · exfalso
        have : findIndex (fun item => item = v) (a :: as) = -1 := by
          simp [findIndex, ha, h2]
        rw [this] at h
        omega
      · have hne : findIndex (fun item => item = v) as ≠ -1 := by rw [h2]; omega
        have hsucc : findIndex (fun item => item = v) (a :: as) = (j : ℤ) + 1 := by
          simp [findIndex, ha, hne, h2]
        rw [hsucc] at h
        have hij : i = j + 1 := by omega
        subst hij
        obtain ⟨hget, hfirst⟩ := ih j h2
        refine ⟨by simpa using hget, ?_⟩
        intro k hk
        match k with
        | 0 => simpa using ha
        | Nat.succ m =>
          have : m < j := by omega
          simpa using hfirst m this

lemma firstIdxOf_unique (l : List JSVal) (v : JSVal) (i j : ℕ)
    (hi : firstIdxOf l v i) (hj : firstIdxOf l v j) : i = j := by
  rcases lt_trichotomy i j with h | h | h
  · exact absurd hi.1 (hj.2 i h)
  · exact h
  · exact absurd hj.1 (hi.2 j h)

/-! ### Claims -/

/-- C1: `getEllipseSegment` computes `largeArcFlag` from the raw pre-wrap
difference as `(endDeg - startDeg ≤ 180) ? 0 : 1`; when
`startDeg > endDeg` it adds 360 to the end angle, and this corrected end
angle is used only to place the end cartesian point, never to recompute
the flag; in particular `getEllipseSegment 350 10` uses 370 internally as
the end angle and returns `largeArcFlag = 0`. -/
theorem C1_flag_prewrap_end_corrected (pi : ℚ) (c s : ℚ → ℚ)
    (startDeg endDeg : ℚ) (svgRadii pointerRadii : Vector2) (strokeWidth : ℚ) :
    ((getEllipseSegment pi c s startDeg endDeg svgRadii pointerRadii strokeWidth).largeArcFlag
        = if endDeg - startDeg ≤ 180 then 0 else 1)
    ∧ (startDeg > endDeg →
        (getEllipseSegment pi c s startDeg endDeg svgRadii pointerRadii strokeWidth).sliderEndPoint
          = polarToCartesian c s (getSVGCenter svgRadii pointerRadii strokeWidth) svgRadii
              (degreesToRadians pi (endDeg + 360)))
    ∧ (startDeg ≤ endDeg →
        (getEllipseSegment pi c s startDeg endDeg svgRadii pointerRadii strokeWidth).sliderEndPoint
          = polarToCartesian c s (getSVGCenter svgRadii pointerRadii strokeWidth) svgRadii
              (degreesToRadians pi endDeg))
    ∧ (getEllipseSegment pi c s 350 10 svgRadii pointerRadii strokeWidth).largeArcFlag = 0
    ∧ (getEllipseSegment pi c s 350 10 svgRadii pointerRadii strokeWidth).sliderEndPoint
        = polarToCartesian c s (getSVGCenter svgRadii pointerRadii strokeWidth) svgRadii
            (degreesToRadians pi 370) := by
  refine ⟨rfl, fun h => ?_, fun h => ?_, by norm_num [getEllipseSegment], ?_⟩
  · simp only [getEllipseSegment]
    rw [if_pos h]
  · simp only [getEllipseSegment]
    rw [if_neg (not_lt.mpr h)]
  · simp only [getEllipseSegment]
    norm_num

/-- Witness for C1 at the wrap case `(350, 10)`. -/
theorem C1_witness :
    (350 : ℚ) > 10
    ∧ (getEllipseSegment 3 (fun _ => 0) (fun _ => 0) 350 10 (1, 1) (1, 1) 1).sliderEndPoint
        = polarToCartesian (fun _ => 0) (fun _ => 0) (getSVGCenter (1, 1) (1, 1) 1) (1, 1)
            (degreesToRadians 3 (10 + 360)) :=
  ⟨by norm_num,
   (C1_flag_prewrap_end_corrected 3 (fun _ => 0) (fun _ => 0) 350 10 (1, 1) (1, 1) 1).2.1
     (by norm_num)⟩

/-- C2 counterexample: at `(startDeg, endDeg) = (90, 0)` the flag is 0
(raw difference `-90 ≤ 180`), yet the span normalised into `[0, 360)` is
`270 > 180`, so the claimed equivalence fails. -/
theorem C2_counterexample :
    ¬ (((getEllipseSegment 3 (fun _ => 0) (fun _ => 0) 90 0 (1, 1) (1, 1) 1).largeArcFlag = 1)
        ↔ 180 < normDeg (0 - 90)) := by
  norm_num [getEllipseSegment, normDeg]

/-- C2 amended: `largeArcFlag = 1` iff the RAW difference
`endDeg - startDeg` exceeds 180° (no normalisation into `[0, 360)` is
applied, so wrap cases with `startDeg > endDeg` always get flag 0). -/
theorem C2_amended_flag_iff_raw_diff (pi : ℚ) (c s : ℚ → ℚ)
    (startDeg endDeg : ℚ) (svgRadii pointerRadii : Vector2) (strokeWidth : ℚ) :
    (getEllipseSegment pi c s startDeg endDeg svgRadii pointerRadii strokeWidth).largeArcFlag = 1
      ↔ 180 < endDeg - startDeg := by
  simp only [getEllipseSegment]
  split_ifs with h
  · simp only [Nat.zero_ne_one, false_iff, not_lt]
    exact h
  · simp only [true_iff]
    exact lt_of_not_le h

/-- C9: `getSVGSize` returns
`(2*rx_svg + sw + max 0 (2*rx_ptr - sw), 2*ry_svg + sw + max 0 (2*ry_ptr - sw))`
and is monotonically non-decreasing in the stroke width and in each
pointer radius component. -/
theorem C9_getSVGSize_formula_monotone (svgRadii pointerRadii : Vector2)
    (strokeWidth sw2 rx2 ry2 : ℚ) :
    getSVGSize svgRadii pointerRadii strokeWidth
      = (2 * svgRadii.1 + strokeWidth + max 0 (2 * pointerRadii.1 - strokeWidth),
         2 * svgRadii.2 + strokeWidth + max 0 (2 * pointerRadii.2 - strokeWidth))
    ∧ (strokeWidth ≤ sw2 →
        (getSVGSize svgRadii pointerRadii strokeWidth).1
          ≤ (getSVGSize svgRadii pointerRadii sw2).1
        ∧ (getSVGSize svgRadii pointerRadii strokeWidth).2
          ≤ (getSVGSize svgRadii pointerRadii sw2).2)
    ∧ (pointerRadii.1 ≤ rx2 →
        (getSVGSize svgRadii pointerRadii strokeWidth).1
          ≤ (getSVGSize svgRadii (rx2, pointerRadii.2) strokeWidth).1)
    ∧ (pointerRadii.2 ≤ ry2 →
        (getSVGSize svgRadii pointerRadii strokeWidth).2
          ≤ (getSVGSize svgRadii (pointerRadii.1, ry2) strokeWidth).2) := by
  refine ⟨?_, fun h => ⟨?_, ?_⟩, fun h => ?_, fun h => ?_⟩
  · simp only [getSVGSize, Prod.mk.injEq]
    constructor <;> rw [mul_comm] <;> ring_nf
  all_goals simp only [getSVGSize, max_def]
  all_goals split_ifs <;> linarith

/-- Witness for C9 at a concrete monotonicity instance. -/
theorem C9_witness :
    (1 : ℚ) ≤ 2
    ∧ (getSVGSize (5, 5) (1, 1) 1).1 ≤ (getSVGSize (5, 5) (1, 1) 2).1
    ∧ (getSVGSize (5, 5) (1, 1) 1).1 ≤ (getSVGSize (5, 5) (2, 1) 1).1 :=
  ⟨by norm_num,
   ((C9_getSVGSize_formula_monotone (5, 5) (1, 1) 1 2 2 2).2.1 (by norm_num)).1,
   (C9_getSVGSize_formula_monotone (5, 5) (1, 1) 1 2 2 2).2.2.1 (by norm_num)⟩

lemma getMinMax_data (parseNum : String → Option ℚ) (MIN MAX : ℚ) (mn mx : JSVal) (d : List JSVal) :
    getMinMax parseNum MIN MAX mn mx (some d)
      = (if findIndex (fun item => item = mn) d = -1 then 0
           else ((findIndex (fun item => item = mn) d : ℤ) : ℚ),
         if findIndex (fun item => item = mx) d = -1 then (d.length : ℚ) - 1
           else ((findIndex (fun item => item = mx) d : ℤ) : ℚ)) := rfl

lemma getMinMax_numeric (parseNum : String → Option ℚ) (MIN MAX : ℚ) (mn mx : JSVal) :
    getMinMax parseNum MIN MAX mn mx none
      = (getNumber parseNum mn MIN,
         let resMin := getNumber parseNum mn MIN
         let resMax0 := getNumber parseNum mx MAX
         let resMax1 := if resMin > resMax0 then resMin + MAX else resMax0
         if resMax1 < resMin then resMin + MAX else resMax1) := rfl

theorem C3_counterexample :
    ¬ ((getMinMax (fun _ => none) 0 100 (JSVal.str "b") (JSVal.str "a")
          (some [JSVal.str "a", JSVal.str "b", JSVal.str "c"])).1
        ≤ (getMinMax (fun _ => none) 0 100 (JSVal.str "b") (JSVal.str "a")
          (some [JSVal.str "a", JSVal.str "b", JSVal.str "c"])).2) := by
  decide

theorem C3_amended_numeric_min_le_max (parseNum : String → Option ℚ)
    (MIN MAX : ℚ) (mn mx : JSVal) (h : 0 ≤ MAX) :
    (getMinMax parseNum MIN MAX mn mx none).1 ≤ (getMinMax parseNum MIN MAX mn mx none).2 := by
  rw [getMinMax_numeric]
  simp only
  split_ifs <;> linarith

theorem C3_witness :
    (0 : ℚ) ≤ 100
    ∧ (getMinMax (fun _ => none) 0 100 (JSVal.num 5) (JSVal.num 2) none).1
        ≤ (getMinMax (fun _ => none) 0 100 (JSVal.num 5) (JSVal.num 2) none).2 :=
  ⟨by norm_num, C3_amended_numeric_min_le_max (fun _ => none) 0 100 (JSVal.num 5) (JSVal.num 2) (by norm_num)⟩

theorem C4_categorical_first_match :
    (∀ (parseNum : String → Option ℚ) (MIN MAX : ℚ) (mn mx : JSVal) (d : List JSVal),
      d ≠ [] →
      (∀ i : ℕ, firstIdxOf d mn i → (getMinMax parseNum MIN MAX mn mx (some d)).1 = (i : ℚ))
      ∧ ((∀ i : ℕ, ¬ firstIdxOf d mn i) → (getMinMax parseNum MIN MAX mn mx (some d)).1 = 0)
      ∧ (∀ i : ℕ, firstIdxOf d mx i → (getMinMax parseNum MIN MAX mn mx (some d)).2 = (i : ℚ))
      ∧ ((∀ i : ℕ, ¬ firstIdxOf d mx i) →
          (getMinMax parseNum MIN MAX mn mx (some d)).2 = (d.length : ℚ) - 1))
    ∧ getMinMax (fun _ => none) 0 100 (JSVal.str "b") (JSVal.str "a")
        (some [JSVal.str "a", JSVal.str "b", JSVal.str "c"]) = (1, 0) := by
  refine ⟨fun parseNum MIN MAX mn mx d hd => ⟨?_, ?_, ?_, ?_⟩, by decide⟩
  · intro i hfi
    rw [getMinMax_data]
    rcases findIndex_cases (fun item => item = mn) d with h | ⟨j, h⟩
    · exfalso
      have hmem : mn ∈ d := List.mem_iff_get?.mpr ⟨i, hfi.1⟩
      have := findIndex_neg_one_not_sat _ _ h mn hmem
      simp at this
    · have hfj := findIndex_firstIdxOf mn d j h
      have hij : i = j := firstIdxOf_unique d mn i j hfi hfj
      subst hij
      simp only [h]
      rw [if_neg (by omega : ¬ ((i : ℤ) = -1))]
      norm_cast
  · intro hall
    rw [getMinMax_data]
    rcases findIndex_cases (fun item => item = mn) d with h | ⟨j, h⟩
    · simp [h]
    · exact absurd (findIndex_firstIdxOf mn d j h) (hall j)
  · intro i hfi
    rw [getMinMax_data]
    rcases findIndex_cases (fun item => item = mx) d with h | ⟨j, h⟩
    · exfalso
      have hmem : mx ∈ d := List.mem_iff_get?.mpr ⟨i, hfi.1⟩
      have := findIndex_neg_one_not_sat _ _ h mx hmem
      simp at this
    · have hfj := findIndex_firstIdxOf mx d j h
      have hij : i = j := firstIdxOf_unique d mx i j hfi hfj
      subst hij
      simp only [h]
      rw [if_neg (by omega : ¬ ((i : ℤ) = -1))]
      norm_cast
  · intro hall
    rw [getMinMax_data]
    rcases findIndex_cases (fun item => item = mx) d with h | ⟨j, h⟩
    · simp [h]
    · exact absurd (findIndex_firstIdxOf mx d j h) (hall j)

theorem C4_witness :
    ([JSVal.str "a", JSVal.str "b"] ≠ ([] : List JSVal))
    ∧ (getMinMax (fun _ => none) 0 100 (JSVal.str "b") (JSVal.str "b")
        (some [JSVal.str "a", JSVal.str "b"])).1 = ((1 : ℕ) : ℚ) :=
  ⟨by simp,
   (C4_categorical_first_match.1 (fun _ => none) 0 100 (JSVal.str "b") (JSVal.str "b")
      [JSVal.str "a", JSVal.str "b"] (by simp)).1 1
     ⟨rfl, by
        intro j hj
        have hj0 : j = 0 := by omega
        subst hj0
        decide⟩⟩

theorem C5_numeric_defaults_and_inversion (parseNum : String → Option ℚ)
    (MIN MAX : ℚ) (mn mx : JSVal) (hd : MIN ≤ MAX) :
    getMinMax parseNum MIN MAX JSVal.undef JSVal.undef none = (MIN, MAX)
    ∧ (getMinMax parseNum MIN MAX mn mx none
        = (getNumber parseNum mn MIN,
           if getNumber parseNum mx MAX < getNumber parseNum mn MIN
           then getNumber parseNum mn MIN + MAX
           else getNumber parseNum mx MAX))
    ∧ getMinMax parseNum MIN MAX (JSVal.num 5) (JSVal.num 2) none = (5, 5 + MAX) := by
  refine ⟨?_, ?_, ?_⟩
  · rw [getMinMax_numeric]
    simp only [getNumber]
    rw [if_neg (not_lt.mpr hd), if_neg (not_lt.mpr hd)]
  · rw [getMinMax_numeric]
    simp only [Prod.mk.injEq, true_and, gt_iff_lt]
    split_ifs <;> linarith
  · rw [getMinMax_numeric]
    simp only [getNumber, Prod.mk.injEq, true_and, gt_iff_lt]
    split_ifs <;> first | rfl | linarith

theorem C5_witness :
    (0 : ℚ) ≤ 100
    ∧ getMinMax (fun _ => none) 0 100 JSVal.undef JSVal.undef none = (0, 100)
    ∧ getMinMax (fun _ => none) 0 100 (JSVal.num 5) (JSVal.num 2) none = (5, 5 + 100) :=
  ⟨by norm_num,
   (C5_numeric_defaults_and_inversion (fun _ => none) 0 100 JSVal.undef JSVal.undef (by norm_num)).1,
   (C5_numeric_defaults_and_inversion (fun _ => none) 0 100 JSVal.undef JSVal.undef (by norm_num)).2.2⟩

theorem C6_getStep_validation (mn mx : ℚ) :
    getStep TStep.null mn mx = TStep.undef
    ∧ getStep TStep.undef mn mx = TStep.undef
    ∧ (∀ f, getStep (TStep.func f) mn mx = TStep.func f)
    ∧ (∀ q : ℚ, getStep (TStep.num q) mn mx = if |mx - mn| < q then TStep.undef else TStep.num q)
    ∧ getStep (TStep.num 1000) 0 10 = TStep.undef
    ∧ getStep (TStep.num 5) 0 10 = TStep.num 5 := by
  refine ⟨rfl, rfl, fun f => rfl, fun q => rfl, by norm_num [getStep], by norm_num [getStep]⟩

lemma getPointerPosition_eq (pi : ℚ) (c s : ℚ → ℚ) (atan2v : Vector2 → ℚ)
    (rectLeftTop absoluteMouse center svgRadii : Vector2)
    (startDeg endDeg : ℚ) (sliderStartPoint sliderEndPoint : Vector2) :
    getPointerPosition pi c s atan2v rectLeftTop absoluteMouse center svgRadii
        startDeg endDeg sliderStartPoint sliderEndPoint
      = if isAngleInArc startDeg endDeg
            (pointerDegrees pi atan2v rectLeftTop absoluteMouse center)
        then ellipseMovement c s center
              (convertRange (pointerAngle pi atan2v rectLeftTop absoluteMouse center) 0 (2 * pi) 0 pi)
              svgRadii.1 svgRadii.2
        else if getAnglesSub (pointerDegrees pi atan2v rectLeftTop absoluteMouse center) startDeg
                ≤ getAnglesSub (pointerDegrees pi atan2v rectLeftTop absoluteMouse center) endDeg
             then sliderStartPoint else sliderEndPoint := by
  simp only [getPointerPosition, pointerDegrees, pointerAngle]
  rcases Bool.eq_false_or_eq_true
      (isAngleInArc startDeg endDeg
        (radiansToDegrees pi
          (if atan2v (v2Sub (absoluteMouse.1 - rectLeftTop.1, absoluteMouse.2 - rectLeftTop.2) center) < 0
           then atan2v (v2Sub (absoluteMouse.1 - rectLeftTop.1, absoluteMouse.2 - rectLeftTop.2) center) + 2 * pi
           else atan2v (v2Sub (absoluteMouse.1 - rectLeftTop.1, absoluteMouse.2 - rectLeftTop.2) center)))) with h | h <;>
    simp [h]

lemma ellipseEq_polar (c s : ℚ → ℚ) (center radii : Vector2) (θ : ℚ)
    (hcs : c θ ^ 2 + s θ ^ 2 = 1) (hrx : radii.1 ≠ 0) (hry : radii.2 ≠ 0) :
    ellipseEq center radii (polarToCartesian c s center radii θ) := by
  simp only [ellipseEq, polarToCartesian]
  rw [add_sub_cancel_left, add_sub_cancel_left, mul_div_cancel_left₀ _ hrx,
    mul_div_cancel_left₀ _ hry, hcs]

lemma isAngleInArc_self_start (startDeg endDeg : ℚ) :
    isAngleInArc startDeg endDeg startDeg = true := by
  simp only [isAngleInArc]
  split_ifs with h <;> simp [h, le_of_lt]

lemma isAngleInArc_self_end (startDeg endDeg : ℚ) :
    isAngleInArc startDeg endDeg endDeg = true := by
  simp only [isAngleInArc]
  split_ifs with h <;> simp [h]

lemma degreesToRadians_radiansToDegrees (pi r : ℚ) (hpi : pi ≠ 0) :
    degreesToRadians pi (radiansToDegrees pi r) = r := by
  simp only [degreesToRadians, radiansToDegrees]
  field_simp

/-- C7: the point returned by getPointerPosition lies on the ellipse and on the active arc. -/
theorem C7_pointer_on_ellipse_and_arc (pi : ℚ) (c s : ℚ → ℚ) (atan2v : Vector2 → ℚ)
    (rectLeftTop absoluteMouse center svgRadii : Vector2)
    (startDeg endDeg : ℚ) (sliderStartPoint sliderEndPoint : Vector2)
    (hcs : ∀ a, c a ^ 2 + s a ^ 2 = 1)
    (hrx : svgRadii.1 ≠ 0) (hry : svgRadii.2 ≠ 0) (hpi : pi ≠ 0)
    (hsp : sliderStartPoint = polarToCartesian c s center svgRadii (degreesToRadians pi startDeg))
    (hep : sliderEndPoint = polarToCartesian c s center svgRadii (degreesToRadians pi endDeg)) :
    ellipseEq center svgRadii
      (getPointerPosition pi c s atan2v rectLeftTop absoluteMouse center svgRadii
        startDeg endDeg sliderStartPoint sliderEndPoint)
    ∧ ∃ deg : ℚ, isAngleInArc startDeg endDeg deg = true
        ∧ getPointerPosition pi c s atan2v rectLeftTop absoluteMouse center svgRadii
            startDeg endDeg sliderStartPoint sliderEndPoint
          = polarToCartesian c s center svgRadii (degreesToRadians pi deg) := by
  rw [getPointerPosition_eq]
  have hmove : ellipseMovement c s center
      (convertRange (pointerAngle pi atan2v rectLeftTop absoluteMouse center) 0 (2 * pi) 0 pi)
      svgRadii.1 svgRadii.2
      = polarToCartesian c s center svgRadii
          (pointerAngle pi atan2v rectLeftTop absoluteMouse center) := by
    have harg : 2 * convertRange (pointerAngle pi atan2v rectLeftTop absoluteMouse center) 0 (2 * pi) 0 pi
        = pointerAngle pi atan2v rectLeftTop absoluteMouse center := by
      simp only [convertRange]
      field_simp
      ring
    simp only [ellipseMovement, polarToCartesian, harg]
  by_cases hin : isAngleInArc startDeg endDeg
      (pointerDegrees pi atan2v rectLeftTop absoluteMouse center) = true
  · rw [if_pos hin, hmove]
    have hround : degreesToRadians pi (pointerDegrees pi atan2v rectLeftTop absoluteMouse center)
        = pointerAngle pi atan2v rectLeftTop absoluteMouse center := by
      simp only [pointerDegrees]
      exact degreesToRadians_radiansToDegrees pi _ hpi
    refine ⟨ellipseEq_polar c s center svgRadii _ (hcs _) hrx hry, ?_⟩
    exact ⟨pointerDegrees pi atan2v rectLeftTop absoluteMouse center, hin, by rw [hround]⟩
  · rw [if_neg hin]
    by_cases hle : getAnglesSub (pointerDegrees pi atan2v rectLeftTop absoluteMouse center) startDeg
        ≤ getAnglesSub (pointerDegrees pi atan2v rectLeftTop absoluteMouse center) endDeg
    · rw [if_pos hle, hsp]
      exact ⟨ellipseEq_polar c s center svgRadii _ (hcs _) hrx hry,
        startDeg, isAngleInArc_self_start startDeg endDeg, rfl⟩
    · rw [if_neg hle, hep]
      exact ⟨ellipseEq_polar c s center svgRadii _ (hcs _) hrx hry,
        endDeg, isAngleInArc_self_end startDeg endDeg, rfl⟩

/-- Witness for C7. -/
theorem C7_witness :
    ellipseEq (0, 0) (1, 1)
      (getPointerPosition 3 (fun _ => 1) (fun _ => 0) (fun _ => 0) (0, 0) (0, 0) (0, 0) (1, 1)
        0 90 (1, 0) (1, 0))
    ∧ ∃ deg : ℚ, isAngleInArc 0 90 deg = true
        ∧ getPointerPosition 3 (fun _ => 1) (fun _ => 0) (fun _ => 0) (0, 0) (0, 0) (0, 0) (1, 1)
            0 90 (1, 0) (1, 0)
          = polarToCartesian (fun _ => 1) (fun _ => 0) (0, 0) (1, 1) (degreesToRadians 3 deg) :=
  C7_pointer_on_ellipse_and_arc 3 (fun _ => 1) (fun _ => 0) (fun _ => 0) (0, 0) (0, 0) (0, 0) (1, 1)
    0 90 (1, 0) (1, 0)
    (fun a => by norm_num) (by norm_num) (by norm_num) (by norm_num)
    (by norm_num [polarToCartesian, degreesToRadians])
    (by norm_num [polarToCartesian, degreesToRadians])

/-- C8: outside the arc, the closer endpoint wins; ties prefer the start point. -/
theorem C8_clamp_closer_endpoint (pi : ℚ) (c s : ℚ → ℚ) (atan2v : Vector2 → ℚ)
    (rectLeftTop absoluteMouse center svgRadii : Vector2)
    (startDeg endDeg : ℚ) (sliderStartPoint sliderEndPoint : Vector2)
    (h : isAngleInArc startDeg endDeg
          (pointerDegrees pi atan2v rectLeftTop absoluteMouse center) = false) :
    (getAnglesSub (pointerDegrees pi atan2v rectLeftTop absoluteMouse center) startDeg
        < getAnglesSub (pointerDegrees pi atan2v rectLeftTop absoluteMouse center) endDeg →
      getPointerPosition pi c s atan2v rectLeftTop absoluteMouse center svgRadii
          startDeg endDeg sliderStartPoint sliderEndPoint = sliderStartPoint)
    ∧ (getAnglesSub (pointerDegrees pi atan2v rectLeftTop absoluteMouse center) endDeg
        < getAnglesSub (pointerDegrees pi atan2v rectLeftTop absoluteMouse center) startDeg →
      getPointerPosition pi c s atan2v rectLeftTop absoluteMouse center svgRadii
          startDeg endDeg sliderStartPoint sliderEndPoint = sliderEndPoint)
    ∧ (getAnglesSub (pointerDegrees pi atan2v rectLeftTop absoluteMouse center) startDeg
        = getAnglesSub (pointerDegrees pi atan2v rectLeftTop absoluteMouse center) endDeg →
      getPointerPosition pi c s atan2v rectLeftTop absoluteMouse center svgRadii
          startDeg endDeg sliderStartPoint sliderEndPoint = sliderStartPoint) := by
  rw [getPointerPosition_eq, if_neg (by simp [h])]
  exact ⟨fun h1 => if_pos (le_of_lt h1), fun h2 => if_neg (not_le.mpr h2),
    fun h3 => if_pos (le_of_eq h3)⟩

/-- Witness for C8. -/
theorem C8_witness :
    isAngleInArc 10 20 (pointerDegrees 3 (fun _ => 0) (0, 0) (0, 0) (0, 0)) = false
    ∧ getPointerPosition 3 (fun _ => 1) (fun _ => 0) (fun _ => 0) (0, 0) (0, 0) (0, 0) (1, 1)
        10 20 (5, 6) (7, 8) = (5, 6) := by
  have h : isAngleInArc 10 20 (pointerDegrees 3 (fun _ => 0) (0, 0) (0, 0) (0, 0)) = false := by
    norm_num [isAngleInArc, pointerDegrees, pointerAngle, radiansToDegrees, v2Sub]
  refine ⟨h, (C8_clamp_closer_endpoint 3 (fun _ => 1) (fun _ => 0) (fun _ => 0) (0, 0) (0, 0)
    (0, 0) (1, 1) 10 20 (5, 6) (7, 8) h).1 ?_⟩
  norm_num [getAnglesSub, pointerDegrees, pointerAngle, radiansToDegrees, v2Sub]

lemma foldl_pair_split (l : List IStatePointer) (acc : WithBot ℚ × WithBot ℚ) :
    l.foldl (fun a p => (max a.1 (p.pointerRadii.1 : WithBot ℚ), max a.2 (p.pointerRadii.2 : WithBot ℚ))) acc
      = (l.foldl (fun m p => max m (p.pointerRadii.1 : WithBot ℚ)) acc.1,
         l.foldl (fun m p => max m (p.pointerRadii.2 : WithBot ℚ)) acc.2) := by
  induction l generalizing acc with
  | nil => rfl
  | cons p ps ih => simp only [List.foldl_cons, ih]

lemma acc_le_foldl_max (g : IStatePointer → WithBot ℚ) (l : List IStatePointer) (acc : WithBot ℚ) :
    acc ≤ l.foldl (fun m p => max m (g p)) acc := by
  induction l generalizing acc with
  | nil => exact le_refl acc
  | cons p ps ih => exact le_trans (le_max_left acc (g p)) (ih (max acc (g p)))

lemma mem_le_foldl_max (g : IStatePointer → WithBot ℚ) :
    ∀ (l : List IStatePointer) (acc : WithBot ℚ) (q : IStatePointer), q ∈ l →
      g q ≤ l.foldl (fun m p => max m (g p)) acc := by
  intro l
  induction l with
  | nil => intro acc q hq; cases hq
  | cons p ps ih =>
    intro acc q hq
    rcases List.mem_cons.mp hq with rfl | hq2
    · exact le_trans (le_max_right acc (g q)) (acc_le_foldl_max g ps (max acc (g q)))
    · exact ih (max acc (g p)) q hq2

lemma foldl_max_eq_acc_or_mem (g : IStatePointer → WithBot ℚ) (l : List IStatePointer)
    (acc : WithBot ℚ) :
    l.foldl (fun m p => max m (g p)) acc = acc
      ∨ ∃ q ∈ l, l.foldl (fun m p => max m (g p)) acc = g q := by
  induction l generalizing acc with
  | nil => exact Or.inl rfl
  | cons p ps ih =>
    rcases ih (max acc (g p)) with h | ⟨q, hq, h⟩
    · rcases max_choice acc (g p) with hm | hm
      · exact Or.inl (by rw [List.foldl_cons, h, hm])
      · exact Or.inr ⟨p, List.mem_cons_self p ps, by rw [List.foldl_cons, h, hm]⟩
    · exact Or.inr ⟨q, List.mem_cons_of_mem p hq, by rw [List.foldl_cons, h]⟩

/-- C10: empty input gives the fold accumulators; non-empty input gives the
componentwise maximum. -/
theorem C10_getMaxPointer_fold :
    getMaxPointer [] = (⊥, ⊥)
    ∧ ∀ ps : List IStatePointer, ps ≠ [] →
        (∀ p ∈ ps, (p.pointerRadii.1 : WithBot ℚ) ≤ (getMaxPointer ps).1
            ∧ (p.pointerRadii.2 : WithBot ℚ) ≤ (getMaxPointer ps).2)
        ∧ (∃ p ∈ ps, (getMaxPointer ps).1 = (p.pointerRadii.1 : WithBot ℚ))
        ∧ (∃ p ∈ ps, (getMaxPointer ps).2 = (p.pointerRadii.2 : WithBot ℚ)) := by
  refine ⟨rfl, fun ps hps => ?_⟩
  obtain ⟨p0, hp0⟩ := List.exists_mem_of_ne_nil ps hps
  simp only [getMaxPointer, foldl_pair_split]
  refine ⟨fun p hp =>
    ⟨mem_le_foldl_max (fun p => (p.pointerRadii.1 : WithBot ℚ)) ps ⊥ p hp,
     mem_le_foldl_max (fun p => (p.pointerRadii.2 : WithBot ℚ)) ps ⊥ p hp⟩, ?_, ?_⟩
  · rcases foldl_max_eq_acc_or_mem (fun p => (p.pointerRadii.1 : WithBot ℚ)) ps ⊥ with h | ⟨q, hq, h⟩
    · exfalso
      have := mem_le_foldl_max (fun p => (p.pointerRadii.1 : WithBot ℚ)) ps ⊥ p0 hp0
      rw [h] at this
      exact WithBot.coe_ne_bot (le_bot_iff.mp this)
    · exact ⟨q, hq, h⟩
  · rcases foldl_max_eq_acc_or_mem (fun p => (p.pointerRadii.2 : WithBot ℚ)) ps ⊥ with h | ⟨q, hq, h⟩
    · exfalso
      have := mem_le_foldl_max (fun p => (p.pointerRadii.2 : WithBot ℚ)) ps ⊥ p0 hp0
      rw [h] at this
      exact WithBot.coe_ne_bot (le_bot_iff.mp this)
    · exact ⟨q, hq, h⟩

/-- Witness for C10. -/
theorem C10_witness :
    ([(⟨(2, 3)⟩ : IStatePointer), ⟨(5, 1)⟩, ⟨(4, 4)⟩] ≠ ([] : List IStatePointer))
    ∧ ((2 : ℚ) : WithBot ℚ) ≤ (getMaxPointer [⟨(2, 3)⟩, ⟨(5, 1)⟩, ⟨(4, 4)⟩]).1 :=
  ⟨by simp,
   ((C10_getMaxPointer_fold.2 [⟨(2, 3)⟩, ⟨(5, 1)⟩, ⟨(4, 4)⟩] (by simp)).1 ⟨(2, 3)⟩
     (by simp)).1⟩

end RoundSlider
